import Mathlib

/-!
# Verification of `dist_meta.distributions`

A shallow embedding, in Lean 4, of the core of `dist_meta/distributions.py`:
the wheel-filename grammar (`_parse_wheel_filename`), the search/resolution
functions (`iter_distributions`, `get_distribution`), the two package handles
(`Distribution`, `WheelDistribution`) and the record-entry ownership rules.

External collaborators of the source (the PEP 440 version parser
`packaging.version.Version`, the name normalizer
`packaging.utils.canonicalize_name`, the `WHEEL`/`METADATA` text parsers and
the regex engine's Unicode character tables) are modelled as parameters, as
the specification treats them as black boxes.

Strings are handled as `List Char` internally, mirroring Python's str
operations character by character.
-/

set_option autoImplicit false

namespace DistMeta

/-! ## Python string / path primitives -/

/-- `leadsWith p cs` : `p` occurs at the very start of `cs`
(Python `s.startswith(p)`; also the building block of substring search). -/
def leadsWith : List Char → List Char → Bool
  | [], _ => true
  | _ :: _, [] => false
  | p :: ps, c :: cs => p == c && leadsWith ps cs

/-- `hasSub pat cs` : `pat` occurs contiguously somewhere in `cs`
(Python `pat in s` on strings). -/
def hasSub (pat : List Char) : List Char → Bool
  | [] => pat.isEmpty
  | c :: cs => leadsWith pat (c :: cs) || hasSub pat cs

/-- `pathlib`'s stem/suffix of a single path component: the suffix is the part
from the last dot on, provided that dot is neither the first nor the last
character of the name (CPython `PurePath.stem` / `PurePath.suffix`:
`i = name.rfind('.'); 0 < i < len(name) - 1`); otherwise the suffix is empty
and the stem is the whole name. Returns `(stem, suffix)`. -/
def pyStemSuffix (cs : List Char) : List Char × List Char :=
  let revSuf := cs.reverse.takeWhile (fun c => c ≠ '.')
  match cs.reverse.dropWhile (fun c => c ≠ '.') with
  | [] => (cs, [])
  | _ :: revStem =>
    if revStem.isEmpty || revSuf.isEmpty then (cs, [])
    else (revStem.reverse, '.' :: revSuf.reverse)

/-- Python `s.split(sep, maxsplit)` for a single-character separator:
split at the leftmost occurrences of `sep`, at most `m` times, keeping the
remainder whole. -/
def splitMax (sep : Char) : Nat → List Char → List (List Char)
  | 0, cs => [cs]
  | m + 1, cs =>
    if cs.contains sep then
      cs.takeWhile (fun c => c ≠ sep) ::
        splitMax sep m ((cs.dropWhile (fun c => c ≠ sep)).tail)
    else [cs]

/-- `domdf_python_tools.utils.divide(string, sep)`: partition at the *first*
occurrence of `sep` into `(left, right)`; `none` models the `ValueError`
raised when `sep` does not occur. -/
def pyDivide (cs : List Char) (sep : Char) : Option (List Char × List Char) :=
  if cs.contains sep then
    some (cs.takeWhile (fun c => c ≠ sep), (cs.dropWhile (fun c => c ≠ sep)).tail)
  else none

/-- First `-`-delimited segment of a stem. -/
def seg1 (cs : List Char) : List Char := cs.takeWhile (fun c => c ≠ '-')

/-- Second `-`-delimited segment of a stem. -/
def seg2 (cs : List Char) : List Char :=
  ((cs.dropWhile (fun c => c ≠ '-')).tail).takeWhile (fun c => c ≠ '-')

/-! ## The regex engine's character classes

The source validates project names with `re.match(r"^[\w\d._]*$", name,
re.UNICODE)`.  Under `re.UNICODE` (the default for `str` patterns), `\w`
matches any character the Unicode database classifies as alphanumeric, plus
the underscore, and `\d` matches any Unicode decimal digit — these tables are
part of the host regex engine, a collaborator of the source, so we take them
as parameters. -/

/-- The two character classes of the host regex engine used by the source
regex, compiled with `re.UNICODE`: `w c` says `c` matches `\w` (Unicode
alphanumeric or underscore), `d c` says `c` matches `\d` (Unicode decimal
digit). -/
structure PyRegexClasses where
  w : Char → Bool
  d : Char → Bool

/-- A character matches the bracket expression `[\w\d._]` of the source
regex. -/
def nameClassChar (R : PyRegexClasses) (c : Char) : Bool :=
  R.w c || R.d c || c == '.' || c == '_'

/-- `re.match(r"^[\w\d._]*$", name, re.UNICODE) is not None`.  The anchors
make the bracket expression consume the whole name (the empty name matches) —
except that Python's `$` also matches just before a newline at the very end
of the string, so a name made of class characters followed by one trailing
newline matches as well. -/
def nameOk (R : PyRegexClasses) (name : List Char) : Bool :=
  name.all (nameClassChar R) ||
    (name.getLast? == some '\n' && name.dropLast.all (nameClassChar R))

/-- The concrete tables of Python's regex engine restricted to code points
below `U+0100` (Latin-1), where the Unicode database classifies as
alphanumeric exactly: the ASCII letters and digits, `ª` `µ` `º`, the
superscripts `¹` `²` `³`, the vulgar fractions `¼` `½` `¾`, and the letters
`À`–`Ö`, `Ø`–`ö`, `ø`–`ÿ`; the decimal digits (category `Nd`) in this range
are the ASCII digits alone.  Code points at `U+0100` and above (which occur
in none of the concrete inputs below) are classified `false`. -/
def latin1Re : PyRegexClasses where
  w c := c.isAlphanum || c == '_' ||
    c.toNat == 0xAA || c.toNat == 0xB5 || c.toNat == 0xBA ||
    c.toNat == 0xB2 || c.toNat == 0xB3 || c.toNat == 0xB9 ||
    (0xBC ≤ c.toNat && c.toNat ≤ 0xBE) ||
    (0xC0 ≤ c.toNat && c.toNat ≤ 0xD6) ||
    (0xD8 ≤ c.toNat && c.toNat ≤ 0xF6) ||
    (0xF8 ≤ c.toNat && c.toNat ≤ 0xFF)
  d c := c.isDigit

/-- The character class the specification describes for project names:
*ASCII* word characters, digits, dots and underscores, i.e.
`[A-Za-z0-9._]`.  Stated from the spec's words, for comparison with the
source's `re.UNICODE` class. -/
def asciiSpecNameChar (c : Char) : Bool :=
  c.isAlphanum || c == '_' || c.isDigit || c == '.'

/-! ## `_parse_wheel_filename` -/

/-- The failures of `_parse_wheel_filename`, carrying exactly the data the
Python exception messages interpolate:

* `badExtension filename` — `InvalidWheelFilename("Invalid wheel filename
  (extension must be '.whl'): {filename}")`;
* `wrongParts filename` — `InvalidWheelFilename("Invalid wheel filename
  (wrong number of parts): {filename}")`;
* `badProjectName name` — `InvalidWheelFilename("Invalid project name:
  {name!r}")` — note this one interpolates the *name segment*, not the
  input filename;
* `badVersion raw` — the error of `packaging.version.Version(raw)`,
  propagated unchanged. -/
inductive WheelFilenameError where
  | badExtension (filename : String)
  | wrongParts (filename : String)
  | badProjectName (name : String)
  | badVersion (raw : String)
  deriving Repr, DecidableEq

/-- `_parse_wheel_filename(filename)` from `dist_meta/distributions.py`
(`= dist_meta._utils._parse_wheel_filename`), parameterized by the regex
engine's character tables `R` and by the black-box version parser `pv`
(`packaging.version.Version`, `none` modelling its parse failure):

```python
if not filename.suffix == ".whl": raise InvalidWheelFilename(...)
stem = filename.stem
dashes = stem.count('-')
if dashes not in (4, 5): raise InvalidWheelFilename(...)
parts = stem.split('-', dashes - 2)
name = parts[0]
if "__" in name or re.match(r"^[\w\d._]*$", name, re.UNICODE) is None:
    raise InvalidWheelFilename(f"Invalid project name: {name!r}")
version = Version(parts[1])
return name, version
``` -/
def _parse_wheel_filename {V : Type} (R : PyRegexClasses) (pv : String → Option V)
    (filename : String) : Except WheelFilenameError (String × V) :=
  let cs := filename.data
  if (pyStemSuffix cs).2 ≠ ".whl".data then
    .error (.badExtension filename)
  else
    let stem := (pyStemSuffix cs).1
    let dashes := stem.count '-'
    if ¬(dashes = 4 ∨ dashes = 5) then
      .error (.wrongParts filename)
    else
      let parts := splitMax '-' (dashes - 2) stem
      let name := parts.getD 0 []
      if hasSub "__".data name || !(nameOk R name) then
        .error (.badProjectName (String.mk name))
      else
        match pv (String.mk (parts.getD 1 [])) with
        | some v => .ok (String.mk name, v)
        | none => .error (.badVersion (String.mk (parts.getD 1 [])))

/-! ## Loose package handles (`Distribution`) -/

/-- `Distribution`: an installed distribution (`NamedTuple` of the source),
with the version kept abstract (`V` is the black-box `packaging.version.Version`
type).  `path` models the path to the `*.dist-info` directory by its final
name component. -/
structure Distribution (V : Type) where
  name : String
  version : V
  path : String
  deriving Repr, DecidableEq

/-- `Distribution.from_path(path)`: takes `path.stem` (stripping the
`.dist-info` suffix), divides it at the *first* `-` into name and version and
parses the version.  `none` models the exceptions of `divide` (no `-` in the
stem) and of `Version` (malformed version), which abort the construction. -/
def Distribution.from_path {V : Type} (pv : String → Option V) (path : String) :
    Option (Distribution V) :=
  match pyDivide (pyStemSuffix path.data).1 '-' with
  | none => none
  | some (n, vraw) =>
    match pv (String.mk vraw) with
    | none => none
    | some v => some ⟨String.mk n, v, path⟩

/-- The contents of a `*.dist-info` directory (or of an archive), as an
association list from file name to text content, mirroring a directory
listing in order. -/
def Files : Type := List (String × String)

/-- Look a file up by name (first match wins, as in a file system where names
are unique). -/
def lookupFile (fs : Files) (filename : String) : Option String :=
  ((fs : List (String × String)).find? (fun p => p.1 == filename)).map Prod.snd

namespace Loose

/-- `Distribution.has_file(filename)`: `(self.path / filename).is_file()`,
over the model `fs` of the directory's contents.  Never throws. -/
def has_file (fs : Files) (filename : String) : Bool :=
  (lookupFile fs filename).isSome

/-- `FileNotFoundError` raised by a read of an absent file. -/
inductive FsError where
  | fileNotFound (filename : String)
  deriving Repr, DecidableEq

/-- `Distribution.read_file(filename)`: `(self.path / filename).read_text()`;
an absent file raises `FileNotFoundError`. -/
def read_file (fs : Files) (filename : String) : Except FsError String :=
  match lookupFile fs filename with
  | some text => .ok text
  | none => .error (.fileNotFound filename)

/-- `Distribution.get_wheel()`:

```python
if self.has_file("WHEEL"):
    return wheel.loads(self.read_file("WHEEL"))
else:
    return None
```

`wheelLoads` is the black-box `dist_meta.wheel.loads` collaborator. -/
def get_wheel {M : Type} (wheelLoads : String → M) (fs : Files) :
    Except FsError (Option M) :=
  if has_file fs "WHEEL" then (read_file fs "WHEEL").map (fun c => some (wheelLoads c))
  else .ok none

end Loose

/-! ## The archive handle (`handy_archives.ZipFile`) and `WheelDistribution` -/

/-- The state of the open zip archive: its members, whether the underlying
file object is still open (`fp is not None`), and how many times the
underlying file has been released.  `close` on an already-closed zip is a
no-op (CPython `ZipFile.close` returns immediately when `fp is None`). -/
structure ZipFile where
  entries : List (String × String)
  fpOpen : Bool
  closeCount : Nat
  deriving Repr, DecidableEq

/-- The failures of a read through the archive handle: a missing member
(`FileNotFoundError`, as raised by `handy_archives`) or a read after the
archive was closed (`ValueError: Attempt to use ZipFile after it was
closed`). -/
inductive ZipReadError where
  | fileNotFound (member : String)
  | closedFile
  deriving Repr, DecidableEq

/-- `ZipFile.close()`: releases the underlying file exactly once; a second
`close` is a no-op. -/
def ZipFile.close (z : ZipFile) : ZipFile :=
  if z.fpOpen then { z with fpOpen := false, closeCount := z.closeCount + 1 } else z

/-- `ZipFile.read_text(member)` (via `handy_archives`): fails on a closed
archive, fails with `FileNotFoundError` on a missing member. -/
def ZipFile.read_text (z : ZipFile) (member : String) : Except ZipReadError String :=
  if z.fpOpen then
    match lookupFile z.entries member with
    | some text => .ok text
    | none => .error (.fileNotFound member)
  else .error .closedFile

/-- `ZipFile.namelist()`: the member names (read from the central directory
loaded at open time, so available regardless of `fp`). -/
def ZipFile.namelist (z : ZipFile) : List String :=
  z.entries.map Prod.fst

/-- `WheelDistribution`: a distribution still in wheel form, owning the open
zip archive. -/
structure WheelDistribution (V : Type) where
  name : String
  version : V
  path : String
  wheel_zip : ZipFile
  deriving Repr, DecidableEq

namespace WheelDistribution

variable {V : Type}

/-- `f"{self.name}-{self.version}.dist-info"` — `showV` renders the
black-box version object into the path, as the f-string does. -/
def distInfoDir (showV : V → String) (wd : WheelDistribution V) : String :=
  wd.name ++ "-" ++ showV wd.version ++ ".dist-info"

/-- `WheelDistribution.read_file(filename)`:
`self.wheel_zip.read_text(posixpath.join(dist_info, filename))`. -/
def read_file (showV : V → String) (wd : WheelDistribution V) (filename : String) :
    Except ZipReadError String :=
  wd.wheel_zip.read_text (wd.distInfoDir showV ++ "/" ++ filename)

/-- `WheelDistribution.has_file(filename)`:
`posixpath.join(dist_info, filename) in self.wheel_zip.namelist()`. -/
def has_file (showV : V → String) (wd : WheelDistribution V) (filename : String) : Bool :=
  wd.wheel_zip.namelist.contains (wd.distInfoDir showV ++ "/" ++ filename)

/-- `WheelDistribution.get_wheel()`:

```python
return wheel.loads(self.read_file("WHEEL"))
```

No existence check: an absent `WHEEL` member makes the read raise
`FileNotFoundError`, which propagates. -/
def get_wheel {M : Type} (wheelLoads : String → M) (showV : V → String)
    (wd : WheelDistribution V) : Except ZipReadError M :=
  (wd.read_file showV "WHEEL").map wheelLoads

/-- `WheelDistribution.__enter__`: returns `self` unchanged. -/
def enter (wd : WheelDistribution V) : WheelDistribution V := wd

/-- The `with wd: ...` block.  The body receives the handle returned by
`__enter__` and its outcome is an `Except` value covering both normal
completion and a raised exception, together with the archive state it leaves
behind; `__exit__` then runs `self.wheel_zip.close()` unconditionally — on
the success path and on the raise path alike, as Python's `with` statement
guarantees. -/
def withBlock {E A : Type} (wd : WheelDistribution V)
    (body : WheelDistribution V → Except E A × ZipFile) : Except E A × ZipFile :=
  let r := body wd.enter
  (r.1, r.2.close)

end WheelDistribution

/-! ## Search & resolution (`iter_distributions`, `get_distribution`) -/

/-- One entry of the search path: whether it is a real directory, and the
children matched by `folder.glob("*.dist-info")`, in listing order. -/
structure Folder where
  isDir : Bool
  distInfos : List String

/-- The inner loop of `iter_distributions` over one folder's `*.dist-info`
children.  Arguments: the children still to visit and the `distro_names_seen`
set (as a list).  Returns the distributions yielded from this folder, the
final seen-set, and whether the generator raised (a `Distribution.from_path`
failure), which ends the whole iteration. -/
def iterFolder {V : Type} (normalize : String → String) (pv : String → Option V) :
    List String → List String → List (Distribution V) × List String × Bool
  | [], seen => ([], seen, false)
  | e :: es, seen =>
    match Distribution.from_path pv e with
    | none => ([], seen, true)
    | some d =>
      let n := normalize d.name
      if seen.contains n then iterFolder normalize pv es seen
      else
        let r := iterFolder normalize pv es (n :: seen)
        (d :: r.1, r.2.1, r.2.2)

/-- The outer loop of `iter_distributions` over the search path: folders that
are not directories are skipped; the seen-set carries across folders within
this single call. -/
def iterPath {V : Type} (normalize : String → String) (pv : String → Option V) :
    List Folder → List String → List (Distribution V) × Bool
  | [], _ => ([], false)
  | f :: fs, seen =>
    if f.isDir then
      let r := iterFolder normalize pv f.distInfos seen
      if r.2.2 then (r.1, true)
      else
        let r2 := iterPath normalize pv fs r.2.1
        (r.1 ++ r2.1, r2.2)
    else iterPath normalize pv fs seen

/-- `iter_distributions(path)`: the distributions the generator yields, in
order, and whether it ended by raising instead of exhausting the path.
`normalize` is the black-box `packaging.utils.canonicalize_name`
collaborator; the seen-set starts empty on every call. -/
def iter_distributions {V : Type} (normalize : String → String) (pv : String → Option V)
    (path : List Folder) : List (Distribution V) × Bool :=
  iterPath normalize pv path []

/-- The failures of `get_distribution`: `DistributionNotFoundError(name)`
when the iteration exhausts without a match, or the generator's own error
propagating (a malformed `*.dist-info` directory name met before any
match). -/
inductive SearchError where
  | distributionNotFound (name : String)
  | iterationError
  deriving Repr, DecidableEq

/-- `get_distribution(name, path)`:

```python
for distro in iter_distributions(path=path):
    if canonicalize_name(distro.name) == canonicalize_name(name):
        return distro
raise DistributionNotFoundError(name)
```

The first yielded distribution whose normalized name equals the normalized
request is returned; a generator failure met before any match propagates. -/
def get_distribution {V : Type} (normalize : String → String) (pv : String → Option V)
    (name : String) (path : List Folder) : Except SearchError (Distribution V) :=
  let r := iter_distributions normalize pv path
  match r.1.find? (fun d => normalize d.name == normalize name) with
  | some d => .ok d
  | none => if r.2 then .error .iterationError else .error (.distributionNotFound name)

/-! ## Record entries and ownership

The `RECORD` machinery (`dist_meta.record`, and the `get_record` methods of
both handles) is part of this repository but not among the given source
files; only its tests are.  It is modelled here from the spec (§3, §4.2,
§4.4), with the owner-binding behavior pinned by the repository's own tests
(`TestDistribution.test_get_record` asserts `file.distro is distro` for the
loose handle; `TestWheelDistribution.test_get_record` and
`TestCustomDistribution.test_get_record` assert `file.distro is None` for
entries produced from wheels). -/

/-- Modelled from the spec: the data fields of one manifest entry as the
Record Parser produces them — relative path, optional
`(algorithm, decoded digest)`, optional size (spec §4.2). -/
structure RecordRow where
  name : String
  hash : Option (String × String)
  size : Option Nat
  deriving Repr, DecidableEq

/-- Modelled from the spec: a manifest entry bound to the package that
produced it through the optional, revocable `distro` owner reference
(spec §3, "ManifestEntry"). -/
structure RecordEntry (ω : Type) where
  row : RecordRow
  distro : Option ω
  deriving Repr, DecidableEq

/-- Modelled from the spec: `dist_meta.record.loads(text, distro)` — the
line-oriented Record Parser itself is the black box `parse`; `loads` binds
every resulting entry's `distro` field to the one supplied owner
(spec §4.2, §4.3 "binds every resulting entry's owner"). -/
def record_loads {ω : Type} (parse : String → List RecordRow) (text : String)
    (distro : Option ω) : List (RecordEntry ω) :=
  (parse text).map (fun row => ⟨row, distro⟩)

/-- Modelled from the spec: `Distribution.get_record()` of the loose handle —
returns `none` if `RECORD` is absent, otherwise parses it with the entries
bound to `self` (spec §4.3 `getManifest`; binding asserted by
`TestDistribution.test_get_record`: `file.distro is distro`). -/
def Loose.get_record {V : Type} (parse : String → List RecordRow) (fs : Files)
    (self : Distribution V) : Option (List (RecordEntry (Distribution V))) :=
  if Loose.has_file fs "RECORD" then
    match lookupFile fs "RECORD" with
    | some text => some (record_loads parse text (some self))
    | none => none
  else none

/-- Modelled from the spec: `WheelDistribution.get_record()` — reads `RECORD`
from the archive and parses it; the entries are produced *unbound*
(`distro=None`), as the repository's tests assert
(`TestWheelDistribution.test_get_record`: `file.distro is None`, and a read
then raises). -/
def WheelDistribution.get_record {V : Type} (parse : String → List RecordRow)
    (showV : V → String) (wd : WheelDistribution V) :
    Except ZipReadError (List (RecordEntry (WheelDistribution V))) :=
  (wd.read_file showV "RECORD").map (fun text => record_loads parse text (none : Option (WheelDistribution V)))

/-- The failures of `RecordEntry.read_bytes`: `noOwner` models
`ValueError("Cannot read files with " + "'self.distro = None'")` — the exact
message the tests match — and `readFailed` a failed read through the owner. -/
inductive ReadBytesError where
  | noOwner
  | readFailed (name : String)
  deriving Repr, DecidableEq

/-- Modelled from the spec: `RecordEntry.read_bytes()` — guarded on the owner
reference: with no owner bound it fails fast with the descriptive
`ValueError` (spec §4.4; message pinned by the tests), otherwise it fetches
the entry's bytes through the owner (`readVia`: the owner-specific fetch,
directory read or archive-member read). -/
def RecordEntry.read_bytes {ω : Type} (readVia : ω → String → Option (List UInt8))
    (e : RecordEntry ω) : Except ReadBytesError (List UInt8) :=
  match e.distro with
  | none => .error .noOwner
  | some d =>
    match readVia d e.row.name with
    | some bs => .ok bs
    | none => .error (.readFailed e.row.name)

/-! ## Concrete instances used by the record-ownership claims -/

/-- A demo wheel in archive form: the open zip holds one `RECORD` member. -/
def demoWheel : WheelDistribution String :=
  ⟨"demo", "1.0", "demo-1.0-py3-none-any.whl",
    ⟨[("demo-1.0.dist-info/RECORD", "demo/x.py,sha256=abc,10")], true, 0⟩⟩

/-- A demo loose distribution alongside its `*.dist-info` contents. -/
def demoLoose : Distribution String :=
  ⟨"demo", "1.0", "demo-1.0.dist-info"⟩

/-- The `*.dist-info` directory contents for `demoLoose`. -/
def demoFs : Files :=
  [("RECORD", "demo/x.py,sha256=abc,10")]

/-- A stand-in for the black-box line parser of the Record Parser: one parsed
row, matching the demo `RECORD` text. -/
def demoParse : String → List RecordRow :=
  fun _ => [⟨"demo/x.py", some ("sha256", "abc"), some 10⟩]

/-- A concrete stand-in for the black-box name normalizer, used only in
witnesses: folds the capital `B` to lower case, enough to identify the
differently-cased spellings of `babel` that the repository's tests use. -/
def demoNormalize (s : String) : String :=
  String.mk (s.data.map (fun c => if c = 'B' then 'b' else c))

/-! ## Lemmas about the string primitives -/

theorem takeWhile_ne_of_not_mem (sep : Char) (cs : List Char)
    (hmem : sep ∉ cs) : cs.takeWhile (fun c => c ≠ sep) = cs := by
  rw [List.takeWhile_eq_self_iff]
  intro c hc
  have hne : c ≠ sep := fun he => hmem (he ▸ hc)
  simp [hne]

theorem splitMax_cons_of_mem (sep : Char) (m : Nat) (cs : List Char) (h : sep ∈ cs) :
    splitMax sep (m + 1) cs =
      cs.takeWhile (fun c => c ≠ sep) ::
        splitMax sep m ((cs.dropWhile (fun c => c ≠ sep)).tail) := by
  simp only [splitMax]
  rw [if_pos (by simpa using h)]

theorem splitMax_getD_zero (sep : Char) (m : Nat) (cs : List Char) (hm : 1 ≤ m) :
    (splitMax sep m cs).getD 0 [] = cs.takeWhile (fun c => c ≠ sep) := by
  match m, hm with
  | m + 1, _ =>
    by_cases h : sep ∈ cs
    · rw [splitMax_cons_of_mem sep m cs h, List.getD_cons_zero]
    · simp only [splitMax]
      rw [if_neg (by simpa using h), List.getD_cons_zero]
      exact (takeWhile_ne_of_not_mem sep cs h).symm

theorem splitMax_getD_one (sep : Char) (m : Nat) (cs : List Char) (hm : 2 ≤ m)
    (h : sep ∈ cs) :
    (splitMax sep m cs).getD 1 [] =
      ((cs.dropWhile (fun c => c ≠ sep)).tail).takeWhile (fun c => c ≠ sep) := by
  match m, hm with
  | m + 1, hm =>
    rw [splitMax_cons_of_mem sep m cs h, List.getD_cons_succ]
    exact splitMax_getD_zero sep m _ (by omega)

theorem mem_of_count_pos (sep : Char) (cs : List Char) (h : 0 < cs.count sep) :
    sep ∈ cs :=
  List.count_pos_iff.mp h

/-! ## C1, C2, C6, C10 — the filename grammar -/

/-- C1: for every filename string whose `pathlib` suffix is exactly `.whl`,
whose extension-stripped stem contains exactly 4 or 5 dashes, whose first
dash-delimited segment matches the name regex class and contains no
double-underscore, and whose second dash-delimited segment the version parser
accepts, `_parse_wheel_filename` succeeds and returns exactly the pair
(first segment, parsed version of the second segment), discarding all
trailing build-tag/pyversion/abi/platform fields. -/
theorem parse_wheel_filename_valid {V : Type} (R : PyRegexClasses) (pv : String → Option V)
    (filename : String) (v : V)
    (hsuf : (pyStemSuffix filename.data).2 = ".whl".data)
    (hdash : (pyStemSuffix filename.data).1.count '-' = 4 ∨
             (pyStemSuffix filename.data).1.count '-' = 5)
    (hname : nameOk R (seg1 (pyStemSuffix filename.data).1) = true)
    (hsub : hasSub "__".data (seg1 (pyStemSuffix filename.data).1) = false)
    (hv : pv (String.mk (seg2 (pyStemSuffix filename.data).1)) = some v) :
    _parse_wheel_filename R pv filename =
      .ok (String.mk (seg1 (pyStemSuffix filename.data).1), v) := by
  have hcpos : 0 < (pyStemSuffix filename.data).1.count '-' := by
    rcases hdash with h | h <;> omega
  have hmem : '-' ∈ (pyStemSuffix filename.data).1 := mem_of_count_pos _ _ hcpos
  have hm2 : 2 ≤ (pyStemSuffix filename.data).1.count '-' - 2 := by
    rcases hdash with h | h <;> omega
  have hp0 : (splitMax '-' ((pyStemSuffix filename.data).1.count '-' - 2)
      (pyStemSuffix filename.data).1).getD 0 [] = seg1 (pyStemSuffix filename.data).1 :=
    splitMax_getD_zero _ _ _ (by omega)
  have hp1 : (splitMax '-' ((pyStemSuffix filename.data).1.count '-' - 2)
      (pyStemSuffix filename.data).1).getD 1 [] = seg2 (pyStemSuffix filename.data).1 :=
    splitMax_getD_one _ _ _ hm2 hmem
  simp only [_parse_wheel_filename]
  rw [if_neg (not_not_intro hsuf), if_neg (not_not_intro hdash), hp0, hp1]
  rw [if_neg (by simp [hsub, hname]), hv]

/-- C10: the name character-class pattern admits the empty string, so a
filename with a correct extension and dash count whose stem begins with a
dash parses successfully, returning the empty string as the name together
with the parsed version. -/
theorem parse_wheel_filename_empty_name {V : Type} (R : PyRegexClasses)
    (pv : String → Option V) (v : V) (hv : pv "0.1" = some v) :
    _parse_wheel_filename R pv "-0.1-py3-none-any.whl" = .ok ("", v) := by
  have h : _parse_wheel_filename R pv "-0.1-py3-none-any.whl" =
      match pv "0.1" with
      | some w => .ok ("", w)
      | none => .error (.badVersion "0.1") := rfl
  rw [h, hv]

/-- C2 (counterexample): on `"dist__meta-0.0.0-py3-none-any.whl"` — correct
extension, correct dash count, name segment containing `__` — the parser does
raise, but the error carries (and its message `Invalid project name:
'dist__meta'` interpolates) only the name segment `"dist__meta"`; the
original input does not occur in it, refuting "naming the original input"
for the double-underscore failure. -/
theorem parse_wheel_filename_name_error_omits_input :
    _parse_wheel_filename latin1Re (fun s => some s) "dist__meta-0.0.0-py3-none-any.whl"
        = .error (.badProjectName "dist__meta")
      ∧ hasSub "dist__meta-0.0.0-py3-none-any.whl".data "dist__meta".data = false :=
  ⟨rfl, rfl⟩

/-- C2 (amended): for every input filename, the parser deterministically
raises `InvalidWheelFilename` whenever the extension is not exactly `.whl`,
or the dash count of the stem is outside {4, 5}, or the name segment contains
a literal double-underscore; the first two failures name the original input,
while the double-underscore failure names the offending name segment (not the
original input). -/
theorem parse_wheel_filename_error_cases {V : Type} (R : PyRegexClasses)
    (pv : String → Option V) (filename : String) :
    ((pyStemSuffix filename.data).2 ≠ ".whl".data →
       _parse_wheel_filename R pv filename = .error (.badExtension filename)) ∧
    ((pyStemSuffix filename.data).2 = ".whl".data →
     ¬((pyStemSuffix filename.data).1.count '-' = 4 ∨
        (pyStemSuffix filename.data).1.count '-' = 5) →
       _parse_wheel_filename R pv filename = .error (.wrongParts filename)) ∧
    ((pyStemSuffix filename.data).2 = ".whl".data →
     ((pyStemSuffix filename.data).1.count '-' = 4 ∨
        (pyStemSuffix filename.data).1.count '-' = 5) →
     hasSub "__".data (seg1 (pyStemSuffix filename.data).1) = true →
       _parse_wheel_filename R pv filename =
         .error (.badProjectName (String.mk (seg1 (pyStemSuffix filename.data).1)))) := by
  refine ⟨fun hsuf => ?_, fun hsuf hdash => ?_, fun hsuf hdash hsub => ?_⟩
  · simp only [_parse_wheel_filename]
    rw [if_pos hsuf]
  · simp only [_parse_wheel_filename]
    rw [if_neg (not_not_intro hsuf), if_pos hdash]
  · have hcpos : 0 < (pyStemSuffix filename.data).1.count '-' := by
      rcases hdash with h | h <;> omega
    have hp0 : (splitMax '-' ((pyStemSuffix filename.data).1.count '-' - 2)
        (pyStemSuffix filename.data).1).getD 0 [] = seg1 (pyStemSuffix filename.data).1 :=
      splitMax_getD_zero _ _ _ (by rcases hdash with h | h <;> omega)
    simp only [_parse_wheel_filename]
    rw [if_neg (not_not_intro hsuf), if_neg (not_not_intro hdash), hp0,
      if_pos (by simp [hsub])]

/-- C6 (counterexample): the source regex is compiled with `re.UNICODE`, so
`\w` also matches non-ASCII Unicode alphanumerics: the name segment `café`
contains `é`, a character outside the ASCII class the claim describes, yet
the parser accepts the filename instead of rejecting it. -/
theorem parse_wheel_filename_accepts_nonascii :
    _parse_wheel_filename latin1Re (fun s => some s) "café-0.1-py3-none-any.whl"
        = .ok ("café", "0.1")
      ∧ "café".data.all asciiSpecNameChar = false :=
  ⟨rfl, rfl⟩

/-- Below `U+00AA` — in particular on all of ASCII — the source regex class
`[\w\d._]` under `re.UNICODE` coincides with the ASCII class the
specification describes (word characters, digits, dots, underscores). -/
theorem nameClassChar_ascii_agrees (c : Char) (h : c.toNat < 0xAA) :
    nameClassChar latin1Re c = asciiSpecNameChar c := by
  simp only [nameClassChar, latin1Re, asciiSpecNameChar]
  have h1 : (c.toNat == 0xAA) = false := by simp; omega
  have h2 : (c.toNat == 0xB5) = false := by simp; omega
  have h3 : (c.toNat == 0xBA) = false := by simp; omega
  have h4 : (c.toNat == 0xB2) = false := by simp; omega
  have h5 : (c.toNat == 0xB3) = false := by simp; omega
  have h6 : (c.toNat == 0xB9) = false := by simp; omega
  have h7 : (decide (0xBC ≤ c.toNat) && decide (c.toNat ≤ 0xBE)) = false := by
    simp; omega
  have h8 : (decide (0xC0 ≤ c.toNat) && decide (c.toNat ≤ 0xD6)) = false := by
    simp; omega
  have h9 : (decide (0xD8 ≤ c.toNat) && decide (c.toNat ≤ 0xF6)) = false := by
    simp; omega
  have h10 : (decide (0xF8 ≤ c.toNat) && decide (c.toNat ≤ 0xFF)) = false := by
    simp; omega
  rw [h1, h2, h3, h4, h5, h6, h7, h8, h9, h10]
  cases c.isAlphanum <;> cases hu : c == '_' <;> cases c.isDigit <;>
    cases hp : c == '.' <;> simp

/-- The regex check, declaratively: `re.match(r"^[\w\d._]*$", name)` succeeds
exactly when every character of the name is in the class, or the name is
class characters followed by a single trailing newline (the
`$`-before-trailing-newline rule of Python's `re`). -/
theorem nameOk_iff (R : PyRegexClasses) (cs : List Char) :
    nameOk R cs = true ↔
      ((∀ c ∈ cs, nameClassChar R c = true) ∨
        ∃ body, cs = body ++ ['\n'] ∧ ∀ c ∈ body, nameClassChar R c = true) := by
  unfold nameOk
  rw [Bool.or_eq_true, List.all_eq_true]
  refine or_congr Iff.rfl ?_
  rw [Bool.and_eq_true, List.all_eq_true, beq_iff_eq]
  constructor
  · rintro ⟨hlast, hall⟩
    have hne : cs ≠ [] := by
      rintro rfl
      simp at hlast
    refine ⟨cs.dropLast, ?_, hall⟩
    have h2 : cs.getLast hne = '\n' := by
      rw [List.getLast?_eq_getLast cs hne] at hlast
      injection hlast
    rw [← h2]
    exact (List.dropLast_append_getLast hne).symm
  · rintro ⟨body, rfl, hall⟩
    refine ⟨by simp, ?_⟩
    simpa using hall

/-- C6 (amended): given a correct extension and dash count, the parser
rejects the name segment with an error naming it exactly when the segment
contains a double-underscore, or the source regex fails on it: some character
outside the class `[\w\d._]` and not just a single trailing newline (which
`$` tolerates).  The class is compiled with `re.UNICODE`, so it also admits
non-ASCII word characters; restricted to ASCII it coincides with the class
the specification describes. -/
theorem parse_wheel_filename_name_acceptance {V : Type} (R : PyRegexClasses)
    (pv : String → Option V) (filename : String)
    (hsuf : (pyStemSuffix filename.data).2 = ".whl".data)
    (hdash : (pyStemSuffix filename.data).1.count '-' = 4 ∨
             (pyStemSuffix filename.data).1.count '-' = 5) :
    (_parse_wheel_filename R pv filename =
        .error (.badProjectName (String.mk (seg1 (pyStemSuffix filename.data).1)))
      ↔ (hasSub "__".data (seg1 (pyStemSuffix filename.data).1) = true ∨
          ¬ ((∀ c ∈ seg1 (pyStemSuffix filename.data).1, nameClassChar R c = true) ∨
             ∃ body, seg1 (pyStemSuffix filename.data).1 = body ++ ['\n'] ∧
               ∀ c ∈ body, nameClassChar R c = true))) ∧
    (∀ c : Char, c.toNat < 0xAA → nameClassChar latin1Re c = asciiSpecNameChar c) := by
  constructor
  · have hcpos : 0 < (pyStemSuffix filename.data).1.count '-' := by
      rcases hdash with h | h <;> omega
    have hmem : '-' ∈ (pyStemSuffix filename.data).1 := mem_of_count_pos _ _ hcpos
    have hp0 : (splitMax '-' ((pyStemSuffix filename.data).1.count '-' - 2)
        (pyStemSuffix filename.data).1).getD 0 [] = seg1 (pyStemSuffix filename.data).1 :=
      splitMax_getD_zero _ _ _ (by rcases hdash with h | h <;> omega)
    constructor
    · intro hparse
      by_cases hsubb : hasSub "__".data (seg1 (pyStemSuffix filename.data).1) = true
      · exact Or.inl hsubb
      · refine Or.inr fun hdecl => ?_
        have hname : nameOk R (seg1 (pyStemSuffix filename.data).1) = true :=
          (nameOk_iff R _).mpr hdecl
        have hsub : hasSub "__".data (seg1 (pyStemSuffix filename.data).1) = false := by
          cases hb : hasSub "__".data (seg1 (pyStemSuffix filename.data).1)
          · rfl
          · exact absurd hb hsubb
        simp only [_parse_wheel_filename] at hparse
        rw [if_neg (not_not_intro hsuf), if_neg (not_not_intro hdash), hp0,
          if_neg (by simp [hsub, hname])] at hparse
        rcases hpv : pv (String.mk ((splitMax '-'
            ((pyStemSuffix filename.data).1.count '-' - 2)
            (pyStemSuffix filename.data).1).getD 1 [])) with _ | w
        · rw [hpv] at hparse
          simp at hparse
        · rw [hpv] at hparse
          simp at hparse
    · intro hguard
      simp only [_parse_wheel_filename]
      rw [if_neg (not_not_intro hsuf), if_neg (not_not_intro hdash), hp0,
        if_pos ?_]
      rcases hguard with h | h
      · simp [h]
      · have hname : nameOk R (seg1 (pyStemSuffix filename.data).1) = false := by
          cases hb : nameOk R (seg1 (pyStemSuffix filename.data).1)
          · rfl
          · exact absurd ((nameOk_iff R _).mp hb) h
        simp [hname]
  · exact nameClassChar_ascii_agrees

/-- C1 (witness): the grammar theorem applied at
`"foo-1.0-py3-none-any.whl"` with the identity stand-in for the version
parser. -/
theorem parse_wheel_filename_valid_witness :
    _parse_wheel_filename latin1Re (fun s => some s) "foo-1.0-py3-none-any.whl"
      = .ok ("foo", "1.0") :=
  parse_wheel_filename_valid latin1Re (fun s => some s) "foo-1.0-py3-none-any.whl" "1.0"
    rfl (Or.inl rfl) rfl rfl rfl

/-- C2 (witness): the three error cases of the amended theorem applied at the
inputs of the repository's own error tests. -/
theorem parse_wheel_filename_error_cases_witness :
    _parse_wheel_filename latin1Re (fun s => some s) "my_project-0.1.2.tar.gz"
        = .error (.badExtension "my_project-0.1.2.tar.gz")
      ∧ _parse_wheel_filename latin1Re (fun s => some s)
          "dist_meta-0.0.0-py2-py3-py4-none-any.whl"
        = .error (.wrongParts "dist_meta-0.0.0-py2-py3-py4-none-any.whl")
      ∧ _parse_wheel_filename latin1Re (fun s => some s) "dist__meta-0.1-py3-none-any.whl"
        = .error (.badProjectName "dist__meta") :=
  ⟨(parse_wheel_filename_error_cases latin1Re (fun s => some s)
      "my_project-0.1.2.tar.gz").1 (by decide),
   (parse_wheel_filename_error_cases latin1Re (fun s => some s)
      "dist_meta-0.0.0-py2-py3-py4-none-any.whl").2.1 rfl (by decide),
   (parse_wheel_filename_error_cases latin1Re (fun s => some s)
      "dist__meta-0.1-py3-none-any.whl").2.2 rfl (by decide) rfl⟩

/-- C6 (witness): the acceptance theorem applied at a name containing `!` —
outside the class and not a trailing newline, so rejected with the name in
the error — and the class agreement applied at an ASCII letter. -/
theorem parse_wheel_filename_name_acceptance_witness :
    _parse_wheel_filename latin1Re (fun s => some s) "bad!name-0.1-py3-none-any.whl"
        = .error (.badProjectName "bad!name")
      ∧ nameClassChar latin1Re 'z' = asciiSpecNameChar 'z' :=
  ⟨((parse_wheel_filename_name_acceptance latin1Re (fun s => some s)
        "bad!name-0.1-py3-none-any.whl" rfl (Or.inl rfl)).1).mpr
      (Or.inr (fun hdecl => by
        rcases hdecl with hall | ⟨body, hb, _⟩
        · exact absurd (hall '!' (by decide)) (by decide)
        · have hb' : "bad!name".data = body ++ ['\n'] := hb
          have hnl : '\n' ∈ ("bad!name".data : List Char) := by
            rw [hb']
            exact List.mem_append_right _ (by simp)
          exact absurd hnl (by decide))),
   (parse_wheel_filename_name_acceptance latin1Re (fun s => some s)
        "bad!name-0.1-py3-none-any.whl" rfl (Or.inl rfl)).2 'z' (by decide)⟩

/-- C10 (witness): the empty-name theorem applied with the identity stand-in
for the version parser. -/
theorem parse_wheel_filename_empty_name_witness :
    _parse_wheel_filename latin1Re (fun s => some s) "-0.1-py3-none-any.whl"
      = .ok ("", "0.1") :=
  parse_wheel_filename_empty_name latin1Re (fun s => some s) "0.1" rfl

/-! ## C3, C4 — search & resolution -/

theorem iterFolder_inv {V : Type} (normalize : String → String) (pv : String → Option V)
    (es : List String) (seen : List String) :
    (∀ n ∈ seen, n ∈ (iterFolder normalize pv es seen).2.1) ∧
    (∀ d ∈ (iterFolder normalize pv es seen).1, normalize d.name ∉ seen) ∧
    (∀ d ∈ (iterFolder normalize pv es seen).1,
       normalize d.name ∈ (iterFolder normalize pv es seen).2.1) ∧
    ((iterFolder normalize pv es seen).1.map (fun d => normalize d.name)).Nodup := by
  induction es generalizing seen with
  | nil => simp [iterFolder]
  | cons e es ih =>
    cases hfp : Distribution.from_path pv e with
    | none => simp [iterFolder, hfp]
    | some d =>
      by_cases hc : seen.contains (normalize d.name)
      · simpa only [iterFolder, hfp, hc, if_pos] using ih seen
      · have hnm : normalize d.name ∉ seen := by simpa using hc
        have ihs := ih (normalize d.name :: seen)
        simp only [iterFolder, hfp, hc, if_neg, Bool.false_eq_true, if_false,
          List.mem_cons, List.map_cons, List.nodup_cons]
        refine ⟨fun n hn => ihs.1 n (List.mem_cons_of_mem _ hn), ?_, ?_, ?_, ?_⟩
        · rintro d' (rfl | hd')
          · exact hnm
          · exact fun hmem => ihs.2.1 d' hd' (List.mem_cons_of_mem _ hmem)
        · rintro d' (rfl | hd')
          · exact ihs.1 _ (List.mem_cons_self _ _)
          · exact ihs.2.2.1 d' hd'
        · intro hmem
          obtain ⟨d', hd', heq⟩ := List.mem_map.mp hmem
          exact ihs.2.1 d' hd' (heq ▸ List.mem_cons_self _ _)
        · exact ihs.2.2.2

theorem iterPath_inv {V : Type} (normalize : String → String) (pv : String → Option V)
    (fs : List Folder) (seen : List String) :
    (∀ d ∈ (iterPath normalize pv fs seen).1, normalize d.name ∉ seen) ∧
    ((iterPath normalize pv fs seen).1.map (fun d => normalize d.name)).Nodup := by
  induction fs generalizing seen with
  | nil => simp [iterPath]
  | cons f fs ih =>
    by_cases hdir : f.isDir
    · have hF := iterFolder_inv normalize pv f.distInfos seen
      by_cases hcr : (iterFolder normalize pv f.distInfos seen).2.2
      · simp only [iterPath, hdir, if_pos, hcr]
        exact ⟨hF.2.1, hF.2.2.2⟩
      · have ihs := ih (iterFolder normalize pv f.distInfos seen).2.1
        simp only [iterPath, hdir, if_pos, hcr, Bool.false_eq_true, if_false,
          List.mem_append, List.map_append, List.nodup_append]
        refine ⟨?_, hF.2.2.2, ihs.2, ?_⟩
        · rintro d (hd | hd)
          · exact hF.2.1 d hd
          · exact fun hmem => ihs.1 d hd (hF.1 _ hmem)
        · intro a ha hb
          obtain ⟨d1, hd1, he1⟩ := List.mem_map.mp ha
          obtain ⟨d2, hd2, he2⟩ := List.mem_map.mp hb
          exact ihs.1 d2 hd2 (he2 ▸ he1 ▸ hF.2.2.1 d1 hd1)
    · simpa only [iterPath, hdir, if_neg] using ih seen

/-- C3: enumerating a search path yields at most one distribution per
normalized name in a single call (the yielded normalized names are nodup);
entries of the search path that are not directories are skipped entirely;
and when two directories each contain a distribution of the same normalized
name, exactly one result is produced — the one from the first directory in
path order. -/
theorem iter_distributions_shadowing {V : Type} (normalize : String → String)
    (pv : String → Option V) :
    (∀ path : List Folder,
       ((iter_distributions normalize pv path).1.map (fun d => normalize d.name)).Nodup) ∧
    (∀ (es : List String) (fs : List Folder),
       iter_distributions normalize pv (⟨false, es⟩ :: fs) = iter_distributions normalize pv fs) ∧
    (∀ (e₁ e₂ : String) (d₁ d₂ : Distribution V),
       Distribution.from_path pv e₁ = some d₁ →
       Distribution.from_path pv e₂ = some d₂ →
       normalize d₂.name = normalize d₁.name →
       iter_distributions normalize pv [⟨true, [e₁]⟩, ⟨true, [e₂]⟩] = ([d₁], false)) := by
  refine ⟨fun path => (iterPath_inv normalize pv path []).2, fun es fs => rfl, ?_⟩
  intro e₁ e₂ d₁ d₂ h₁ h₂ hnm
  simp [iter_distributions, iterPath, iterFolder, h₁, h₂, hnm]

theorem find?_eq_some_iff_split {α : Type} (p : α → Bool) (l : List α) (a : α) :
    l.find? p = some a ↔
      ∃ l₁ l₂, l = l₁ ++ a :: l₂ ∧ p a = true ∧ ∀ x ∈ l₁, p x = false := by
  induction l with
  | nil => simp
  | cons b l ih =>
    by_cases hb : p b
    · rw [List.find?_cons_of_pos _ hb]
      constructor
      · intro h
        injection h with h
        exact ⟨[], l, by simp [h], h ▸ hb, by simp⟩
      · rintro ⟨l₁, l₂, heq, hpa, hall⟩
        cases l₁ with
        | nil =>
          simp only [List.nil_append, List.cons.injEq] at heq
          rw [heq.1]
        | cons c l₁ =>
          rw [List.cons_append] at heq
          injection heq with h1 h2
          have hpc := hall c (List.mem_cons_self _ _)
          rw [← h1] at hpc
          rw [hb] at hpc
          exact absurd hpc (by simp)
    · have hbf : p b = false := by
        cases hpb : p b
        · rfl
        · exact absurd hpb hb
      rw [List.find?_cons_of_neg _ hb, ih]
      constructor
      · rintro ⟨l₁, l₂, heq, hpa, hall⟩
        refine ⟨b :: l₁, l₂, by simp [heq], hpa, ?_⟩
        intro x hx
        rcases List.mem_cons.mp hx with rfl | hx'
        · exact hbf
        · exact hall x hx'
      · rintro ⟨l₁, l₂, heq, hpa, hall⟩
        cases l₁ with
        | nil =>
          simp only [List.nil_append, List.cons.injEq] at heq
          rw [heq.1] at hbf
          rw [hpa] at hbf
          exact absurd hbf (by simp)
        | cons c l₁ =>
          rw [List.cons_append] at heq
          injection heq with h1 h2
          exact ⟨l₁, l₂, h2, hpa, fun x hx => hall x (List.mem_cons_of_mem _ hx)⟩

/-- C4: resolving by name normalizes the request and returns the first
enumerated distribution whose normalized name equals the normalized request;
and it raises `DistributionNotFoundError` carrying the requested name if and
only if the enumeration exhausts (without a generator failure) with no
match. -/
theorem get_distribution_resolution {V : Type} (normalize : String → String)
    (pv : String → Option V) (name : String) (path : List Folder) :
    (∀ d : Distribution V,
       get_distribution normalize pv name path = .ok d ↔
         ∃ l₁ l₂, (iter_distributions normalize pv path).1 = l₁ ++ d :: l₂ ∧
           normalize d.name = normalize name ∧
           ∀ e ∈ l₁, normalize e.name ≠ normalize name) ∧
    (get_distribution normalize pv name path = .error (.distributionNotFound name) ↔
       (∀ d ∈ (iter_distributions normalize pv path).1,
          normalize d.name ≠ normalize name) ∧
       (iter_distributions normalize pv path).2 = false) := by
  have hmain : ∀ d : Distribution V,
      (iter_distributions normalize pv path).1.find?
          (fun e => normalize e.name == normalize name) = some d ↔
        ∃ l₁ l₂, (iter_distributions normalize pv path).1 = l₁ ++ d :: l₂ ∧
          normalize d.name = normalize name ∧
          ∀ e ∈ l₁, normalize e.name ≠ normalize name := by
    intro d
    rw [find?_eq_some_iff_split]
    constructor
    · rintro ⟨l₁, l₂, heq, hp, hall⟩
      exact ⟨l₁, l₂, heq, by simpa using hp, fun e he => by simpa using hall e he⟩
    · rintro ⟨l₁, l₂, heq, hp, hall⟩
      exact ⟨l₁, l₂, heq, by simpa using hp, fun e he => by simpa using hall e he⟩
  constructor
  · intro d
    rw [← hmain d]
    rcases hf : (iter_distributions normalize pv path).1.find?
        (fun e => normalize e.name == normalize name) with _ | d'
    · simp only [get_distribution, hf]
      by_cases hcr : (iter_distributions normalize pv path).2 = true <;> simp [hcr]
    · simp only [get_distribution, hf]
      simp
  · rcases hf : (iter_distributions normalize pv path).1.find?
        (fun e => normalize e.name == normalize name) with _ | d'
    · have hnone := List.find?_eq_none.mp hf
      by_cases hcr : (iter_distributions normalize pv path).2 = true
      · simp only [get_distribution, hf, hcr, if_true]
        constructor
        · intro h
          simp at h
        · rintro ⟨_, h2⟩
          exact absurd h2 (by simp)
      · have hcr' : (iter_distributions normalize pv path).2 = false := by
          simpa using hcr
        simp only [get_distribution, hf, hcr', Bool.false_eq_true, if_false, hnone]
        constructor
        · intro _
          refine ⟨fun d hd heq => ?_, trivial⟩
          have := hnone d hd
          simp [heq] at this
        · intro _
          trivial
    · have hsome := List.find?_some hf
      have hdmem := List.mem_of_find?_eq_some hf
      simp only [get_distribution, hf]
      constructor
      · intro h
        simp at h
      · rintro ⟨hall, _⟩
        have heq : normalize d'.name = normalize name := by simpa using hsome
        exact absurd heq (hall d' hdmem)

/-- C3 (witness): two directories each holding a Babel distribution under
differently-cased names, with lower-casing as the stand-in normalizer:
exactly the first directory's distribution is yielded. -/
theorem iter_distributions_shadowing_witness :
    iter_distributions demoNormalize (fun s => some s)
        [⟨true, ["Babel-2.0.dist-info"]⟩, ⟨true, ["babel-2.0.dist-info"]⟩]
      = ([⟨"Babel", "2.0", "Babel-2.0.dist-info"⟩], false) :=
  (iter_distributions_shadowing demoNormalize (fun s => some s)).2.2
    "Babel-2.0.dist-info" "babel-2.0.dist-info"
    ⟨"Babel", "2.0", "Babel-2.0.dist-info"⟩ ⟨"babel", "2.0", "babel-2.0.dist-info"⟩
    rfl rfl rfl

/-- C4 (witness): a differently-cased request resolves to the stored
distribution, and an unmatched request yields the not-found error carrying
the requested name. -/
theorem get_distribution_resolution_witness :
    get_distribution demoNormalize (fun s => some s) "babel"
        [⟨true, ["Babel-2.0.dist-info"]⟩]
      = .ok ⟨"Babel", "2.0", "Babel-2.0.dist-info"⟩
    ∧ get_distribution demoNormalize (fun s => some s) "requests"
        [⟨true, ["Babel-2.0.dist-info"]⟩]
      = .error (.distributionNotFound "requests") :=
  ⟨((get_distribution_resolution demoNormalize (fun s => some s) "babel"
      [⟨true, ["Babel-2.0.dist-info"]⟩]).1 _).mpr ⟨[], [], rfl, rfl, by simp⟩,
   ((get_distribution_resolution demoNormalize (fun s => some s) "requests"
      [⟨true, ["Babel-2.0.dist-info"]⟩]).2).mpr ⟨by decide, rfl⟩⟩

/-! ## C5, C9 — record-entry ownership -/

theorem record_loads_distro {ω : Type} (parse : String → List RecordRow) (text : String)
    (o : Option ω) (e : RecordEntry ω) (he : e ∈ record_loads parse text o) :
    e.distro = o := by
  obtain ⟨row, _, rfl⟩ := List.mem_map.mp he
  rfl

/-- C5 (counterexample): the archived-form handle's get-record produces its
entries with `distro = none` — not bound to the producing instance, contrary
to the claim for the archived form (as the repository's own test asserts:
`file.distro is None`). -/
theorem wheel_get_record_unbound :
    WheelDistribution.get_record demoParse id demoWheel
        = .ok [⟨⟨"demo/x.py", some ("sha256", "abc"), some 10⟩, none⟩]
      ∧ (none : Option (WheelDistribution String)) ≠ some demoWheel :=
  ⟨rfl, by simp⟩

/-- C5 (amended): every entry produced by the loose handle's get-record is
bound to the same instance that produced it, while entries produced by the
archived handle's get-record (like those of generic/custom variants) are
produced unbound (owner = none). -/
theorem get_record_ownership {V : Type} (parse : String → List RecordRow) (fs : Files)
    (self : Distribution V) (showV : V → String) (wd : WheelDistribution V) :
    (∀ es, Loose.get_record parse fs self = some es →
       ∀ e ∈ es, e.distro = some self) ∧
    (∀ es, WheelDistribution.get_record parse showV wd = .ok es →
       ∀ e ∈ es, e.distro = none) := by
  constructor
  · intro es hes e he
    simp only [Loose.get_record] at hes
    by_cases hhas : Loose.has_file fs "RECORD"
    · rw [if_pos hhas] at hes
      rcases hlk : lookupFile fs "RECORD" with _ | text
      · rw [hlk] at hes
        exact absurd hes (by simp)
      · rw [hlk] at hes
        injection hes with hes
        subst hes
        exact record_loads_distro parse text (some self) e he
    · rw [if_neg hhas] at hes
      exact absurd hes (by simp)
  · intro es hes e he
    simp only [WheelDistribution.get_record] at hes
    rcases hr : WheelDistribution.read_file showV wd "RECORD" with err | text
    · rw [hr] at hes
      exact absurd hes (by simp [Except.map])
    · rw [hr] at hes
      simp only [Except.map] at hes
      injection hes with hes
      subst hes
      exact record_loads_distro parse text none e he

/-- C5 (witness): the ownership theorem applied to the demo loose
distribution: its single parsed entry comes out bound to `demoLoose`. -/
theorem get_record_ownership_witness :
    Loose.get_record demoParse demoFs demoLoose
        = some [⟨⟨"demo/x.py", some ("sha256", "abc"), some 10⟩, some demoLoose⟩]
      ∧ (⟨⟨"demo/x.py", some ("sha256", "abc"), some 10⟩, some demoLoose⟩ :
            RecordEntry (Distribution String)).distro = some demoLoose :=
  ⟨rfl,
   (get_record_ownership demoParse demoFs demoLoose id demoWheel).1 _ rfl _ (by decide)⟩

/-- C9: a manifest entry whose owner reference is unset fails fast on any
read_bytes call with the descriptive no-owner error (the
`ValueError` whose message the tests match), never reading anything. -/
theorem read_bytes_detached_guard {ω : Type} (readVia : ω → String → Option (List UInt8))
    (e : RecordEntry ω) (h : e.distro = none) :
    e.read_bytes readVia = .error .noOwner := by
  simp [RecordEntry.read_bytes, h]

/-- C9 (witness): the guard applied to a concrete detached entry. -/
theorem read_bytes_detached_guard_witness :
    RecordEntry.read_bytes (fun _ _ => some [])
        (⟨⟨"x.py", none, none⟩, (none : Option Unit)⟩ : RecordEntry Unit)
      = .error .noOwner :=
  read_bytes_detached_guard _ _ rfl

/-! ## C7, C8 — the wheel-descriptor asymmetry and the archive lifecycle -/

/-- C7: when the `WHEEL` file is absent, the loose handle's get_wheel returns
none (not an error) while the archived handle's get_wheel fails with
`FileNotFoundError`; when it is present, both return its parsed mapping. -/
theorem get_wheel_asymmetry {V M : Type} (wheelLoads : String → M) (fs : Files)
    (showV : V → String) (wd : WheelDistribution V) :
    (lookupFile fs "WHEEL" = none → Loose.get_wheel wheelLoads fs = .ok none) ∧
    (∀ text, lookupFile fs "WHEEL" = some text →
       Loose.get_wheel wheelLoads fs = .ok (some (wheelLoads text))) ∧
    (wd.wheel_zip.fpOpen = true →
     lookupFile wd.wheel_zip.entries (wd.distInfoDir showV ++ "/" ++ "WHEEL") = none →
       wd.get_wheel wheelLoads showV
         = .error (.fileNotFound (wd.distInfoDir showV ++ "/" ++ "WHEEL"))) ∧
    (∀ text, wd.wheel_zip.fpOpen = true →
     lookupFile wd.wheel_zip.entries (wd.distInfoDir showV ++ "/" ++ "WHEEL") = some text →
       wd.get_wheel wheelLoads showV = .ok (wheelLoads text)) := by
  refine ⟨fun habs => ?_, fun text hpres => ?_, fun hopen habs => ?_,
    fun text hopen hpres => ?_⟩
  · simp [Loose.get_wheel, Loose.has_file, habs]
  · simp [Loose.get_wheel, Loose.has_file, Loose.read_file, hpres, Except.map]
  · simp [WheelDistribution.get_wheel, WheelDistribution.read_file, ZipFile.read_text,
      hopen, habs, Except.map]
  · simp [WheelDistribution.get_wheel, WheelDistribution.read_file, ZipFile.read_text,
      hopen, hpres, Except.map]

/-- C7 (witness): the four cases of the asymmetry theorem at concrete
handles: absent and present `WHEEL` for each storage form. -/
theorem get_wheel_asymmetry_witness :
    Loose.get_wheel (fun s => s) ([("METADATA", "m")] : Files) = .ok none
    ∧ Loose.get_wheel (fun s => s) ([("WHEEL", "Wheel-Version: 1.0")] : Files)
        = .ok (some "Wheel-Version: 1.0")
    ∧ WheelDistribution.get_wheel (fun s => s) id
        (⟨"pkg", "1.0", "pkg-1.0-py3-none-any.whl", ⟨[], true, 0⟩⟩ : WheelDistribution String)
        = .error (.fileNotFound "pkg-1.0.dist-info/WHEEL")
    ∧ WheelDistribution.get_wheel (fun s => s) id
        (⟨"pkg", "1.0", "pkg-1.0-py3-none-any.whl",
          ⟨[("pkg-1.0.dist-info/WHEEL", "Wheel-Version: 1.0")], true, 0⟩⟩ :
            WheelDistribution String)
        = .ok "Wheel-Version: 1.0" :=
  ⟨(get_wheel_asymmetry (fun s => s) [("METADATA", "m")] id demoWheel).1 rfl,
   (get_wheel_asymmetry (fun s => s) [("WHEEL", "Wheel-Version: 1.0")] id demoWheel).2.1
     _ rfl,
   (get_wheel_asymmetry (fun s => s) [] id
     ⟨"pkg", "1.0", "pkg-1.0-py3-none-any.whl", ⟨[], true, 0⟩⟩).2.2.1 rfl rfl,
   (get_wheel_asymmetry (fun s => s) [] id
     ⟨"pkg", "1.0", "pkg-1.0-py3-none-any.whl",
       ⟨[("pkg-1.0.dist-info/WHEEL", "Wheel-Version: 1.0")], true, 0⟩⟩).2.2.2 _ rfl rfl⟩

/-- C8: entering the usage scope returns the same handle unchanged; exiting
the scope — on the success path and on the raise path alike, since the body's
outcome is arbitrary — propagates that outcome, leaves the archive released,
and releases the underlying file exactly once when the body left it open;
and any read through a released archive fails with the closed-file error
rather than succeeding or reopening. -/
theorem wheel_scoped_acquisition {V E A : Type} :
    (∀ wd : WheelDistribution V, wd.enter = wd) ∧
    (∀ (wd : WheelDistribution V) (body : WheelDistribution V → Except E A × ZipFile),
       (wd.withBlock body).1 = (body wd).1 ∧
       (wd.withBlock body).2.fpOpen = false ∧
       ((body wd).2.fpOpen = true →
         (wd.withBlock body).2.closeCount = (body wd).2.closeCount + 1)) ∧
    (∀ (z : ZipFile) (member : String), z.fpOpen = false →
       z.read_text member = .error .closedFile) := by
  refine ⟨fun wd => rfl,
    fun wd body => ⟨rfl, ?_, fun hopen => ?_⟩,
    fun z member hclosed => ?_⟩
  · cases h : (body wd).2.fpOpen <;>
      simp [WheelDistribution.withBlock, WheelDistribution.enter, ZipFile.close, h]
  · simp [WheelDistribution.withBlock, WheelDistribution.enter, ZipFile.close, hopen]
  · simp [ZipFile.read_text, hclosed]

/-- C8 (witness): the lifecycle theorem at a concrete handle and a body that
returns successfully leaving the archive open: enter is the identity, the
close count goes up by exactly one, and a read on the released archive
errors. -/
theorem wheel_scoped_acquisition_witness :
    (WheelDistribution.enter
        (⟨"pkg", "1.0", "pkg.whl", ⟨[], true, 0⟩⟩ : WheelDistribution String))
        = ⟨"pkg", "1.0", "pkg.whl", ⟨[], true, 0⟩⟩
      ∧ (WheelDistribution.withBlock
            (⟨"pkg", "1.0", "pkg.whl", ⟨[], true, 0⟩⟩ : WheelDistribution String)
            (fun w => ((Except.ok 0 : Except String Nat), w.wheel_zip))).2.closeCount
          = 0 + 1
      ∧ (⟨[], false, 1⟩ : ZipFile).read_text "top_level.txt" = .error .closedFile :=
  ⟨(wheel_scoped_acquisition (V := String) (E := String) (A := Nat)).1 _,
   ((wheel_scoped_acquisition (V := String) (E := String) (A := Nat)).2.1
      ⟨"pkg", "1.0", "pkg.whl", ⟨[], true, 0⟩⟩
      (fun w => (Except.ok 0, w.wheel_zip))).2.2 rfl,
   (wheel_scoped_acquisition (V := String) (E := String) (A := Nat)).2.2
      ⟨[], false, 1⟩ "top_level.txt" rfl⟩

end DistMeta
